import Mathlib

/-!
# Verification of the orchestrator service work queue and PR review tracker

Shallow embedding of `src/orchestrator_service/work_queue.py`,
`src/orchestrator_service/pr_review_tracker.py` and the relevant request
handlers of `src/orchestrator_service/server.py`.

Python dictionaries (`Dict[int, WorkItem]`, `Dict[int, PendingPR]`) preserve
insertion order and have unique keys; they are modelled as insertion-ordered
association lists where lookup returns the first (hence only) entry with the
key, in-place value mutation rewrites that entry keeping its position, and
insertion of a fresh key appends.  Python `datetime.now()` is modelled by an
explicit `now : Nat` parameter threaded into every operation that reads the
clock.  Python `Optional[str]` fields become `Option String`.
-/

namespace Orchestrator

/-- The `status` string field of a `WorkItem`
(`"pending" | "in_progress" | "completed" | "failed"`). -/
inductive Status where
  | pending
  | in_progress
  | completed
  | failed
deriving DecidableEq, Repr

/-- `WorkItem` dataclass from `work_queue.py` (lines 16-31). -/
structure WorkItem where
  issue_number : Nat
  title : String
  body : String
  labels : List String
  repository : String
  branch_name : String
  status : Status := .pending
  assigned_to : Option String := none
  assigned_at : Option Nat := none
  completed_at : Option Nat := none
  pr_url : Option String := none
  error : Option String := none
  retry_count : Nat := 0
deriving DecidableEq, Repr

/-- The `WorkQueue` state: `self.items : Dict[int, WorkItem]` keyed by
`issue_number`, as an insertion-ordered list.  (`file_locks` is never used by
the operations under study and is omitted.) -/
structure WorkQueue where
  items : List WorkItem
deriving DecidableEq, Repr

namespace WorkQueue

/-- Dictionary lookup `self.items[n]` / `self.items.get(n)`: the first item
with the given issue number. -/
def findItem : List WorkItem → Nat → Option WorkItem
  | [], _ => none
  | it :: rest, n => if it.issue_number = n then some it else findItem rest n

/-- Membership test `n in self.items`. -/
def hasIssueL (l : List WorkItem) (n : Nat) : Bool :=
  (findItem l n).isSome

/-- `WorkQueue.has_issue` (work_queue.py lines 249-251). -/
def has_issue (q : WorkQueue) (n : Nat) : Bool :=
  hasIssueL q.items n

/-- In-place mutation of the dict entry with key `n`: rewrite the first item
with that issue number, keeping its position. -/
def updateItem : List WorkItem → Nat → (WorkItem → WorkItem) → List WorkItem
  | [], _, _ => []
  | it :: rest, n, f =>
      if it.issue_number = n then f it :: rest
      else it :: updateItem rest n f

/-- `del self.items[n]`: remove the entry with key `n`. -/
def removeItem : List WorkItem → Nat → List WorkItem
  | [], _ => []
  | it :: rest, n =>
      if it.issue_number = n then rest
      else it :: removeItem rest n

/-- The fresh `WorkItem` constructed by `add_work_item`
(work_queue.py lines 66-75), with `branch_name = f"ai-feature/issue-{n}"`. -/
def freshItem (issue_number : Nat) (title body : String)
    (labels : List String) (repository : String) : WorkItem :=
  { issue_number := issue_number
    title := title
    body := body
    labels := labels
    repository := repository
    branch_name := "ai-feature/issue-" ++ toString issue_number }

/-- `WorkQueue.add_work_item` (work_queue.py lines 41-79).  Returns
`(added?, new state)`. -/
def add_work_item (q : WorkQueue) (issue_number : Nat) (title body : String)
    (labels : List String) (repository : String) : Bool × WorkQueue :=
  if hasIssueL q.items issue_number then
    (false, q)
  else
    (true, ⟨q.items ++ [freshItem issue_number title body labels repository]⟩)

/-- The dict of fields that `get_next_work` returns to the worker
(work_queue.py lines 101-108). -/
structure WorkResult where
  issue_number : Nat
  title : String
  body : String
  labels : List String
  branch_name : String
  repository : String
deriving DecidableEq, Repr

/-- Build the returned dict from an item. -/
def resultOf (it : WorkItem) : WorkResult :=
  { issue_number := it.issue_number
    title := it.title
    body := it.body
    labels := it.labels
    branch_name := it.branch_name
    repository := it.repository }

/-- The in-place assignment performed on the first pending item
(work_queue.py lines 95-97). -/
def assign (it : WorkItem) (worker_id : String) (now : Nat) : WorkItem :=
  { it with status := .in_progress
            assigned_to := some worker_id
            assigned_at := some now }

/-- Scan of `self.items.values()` in insertion order: assign the first
pending item (work_queue.py lines 92-111). -/
def getNextWorkAux : List WorkItem → String → Nat →
    Option WorkResult × List WorkItem
  | [], _, _ => (none, [])
  | it :: rest, w, now =>
      if it.status = .pending then
        (some (resultOf (assign it w now)), assign it w now :: rest)
      else
        let r := getNextWorkAux rest w now
        (r.1, it :: r.2)

/-- `WorkQueue.get_next_work` (work_queue.py lines 81-111). -/
def get_next_work (q : WorkQueue) (worker_id : String) (now : Nat) :
    Option WorkResult × WorkQueue :=
  let r := getNextWorkAux q.items worker_id now
  (r.1, ⟨r.2⟩)

/-- `WorkQueue.mark_complete` (work_queue.py lines 113-155). -/
def mark_complete (q : WorkQueue) (issue_number : Nat) (worker_id : String)
    (success : Bool) (pr_url : Option String) (error : Option String)
    (now : Nat) : Bool × WorkQueue :=
  match findItem q.items issue_number with
  | none => (false, q)
  | some item =>
      if item.assigned_to = some worker_id then
        (true, ⟨updateItem q.items issue_number fun it =>
          { it with status := if success then .completed else .failed
                    completed_at := some now
                    pr_url := pr_url
                    error := error }⟩)
      else
        (false, q)

/-- `MAX_RETRIES` constant (work_queue.py line 190). -/
def MAX_RETRIES : Nat := 2

/-- `WorkQueue.mark_failed` (work_queue.py lines 157-208). -/
def mark_failed (q : WorkQueue) (issue_number : Nat) (worker_id : String)
    (error : String) (now : Nat) : Bool × WorkQueue :=
  match findItem q.items issue_number with
  | none => (false, q)
  | some item =>
      if item.assigned_to = some worker_id then
        let rc := item.retry_count + 1
        if MAX_RETRIES ≤ rc then
          (true, ⟨updateItem q.items issue_number fun it =>
            { it with retry_count := rc
                      status := .failed
                      completed_at := some now
                      error := some ("Max retries exceeded. Last error: " ++ error) }⟩)
        else
          (true, ⟨updateItem q.items issue_number fun it =>
            { it with retry_count := rc
                      status := .pending
                      assigned_to := none
                      assigned_at := none
                      error := some ("Retry " ++ toString rc ++ ": " ++ error) }⟩)
      else
        (false, q)

/-- `WorkQueue.release_work` (work_queue.py lines 210-247): ownership-checked
removal of the item from the queue. -/
def release_work (q : WorkQueue) (issue_number : Nat) (worker_id : String) :
    Bool × WorkQueue :=
  match findItem q.items issue_number with
  | none => (false, q)
  | some item =>
      if item.assigned_to = some worker_id then
        (true, ⟨removeItem q.items issue_number⟩)
      else
        (false, q)

/-- `WorkQueue.pending_count` (work_queue.py lines 253-255). -/
def pending_count (q : WorkQueue) : Nat :=
  (q.items.filter fun it => it.status = .pending).length

end WorkQueue

/-- `PendingPR` dataclass from `pr_review_tracker.py` (lines 17-25). -/
structure PendingPR where
  issue_number : Nat
  pr_url : String
  repository : String
  created_at : Nat
  worker_id : String
  dependencies : List Nat
deriving DecidableEq, Repr

/-- The `PRReviewTracker` state (pr_review_tracker.py lines 38-62):
configuration plus `pending_prs : Dict[int, PendingPR]` (insertion-ordered,
keyed by issue number), the `changes_requested_prs` and `approved_prs` sets
(lists of distinct issue numbers), and the dependency graph. -/
structure PRReviewTracker where
  max_pending_prs : Nat := 5
  block_on_changes_requested : Bool := true
  allow_parallel_independent : Bool := true
  pending_prs : List PendingPR := []
  changes_requested_prs : List Nat := []
  approved_prs : List Nat := []
  dependency_graph : List (Nat × List Nat) := []
deriving DecidableEq, Repr

namespace PRReviewTracker

/-- Dict lookup in `pending_prs`. -/
def findPR : List PendingPR → Nat → Option PendingPR
  | [], _ => none
  | pr :: rest, n => if pr.issue_number = n then some pr else findPR rest n

/-- Dict assignment `self.pending_prs[n] = pr`: replace in place if the key
exists, else append. -/
def dictInsertPR : List PendingPR → PendingPR → List PendingPR
  | [], pr => [pr]
  | p :: rest, pr =>
      if p.issue_number = pr.issue_number then pr :: rest
      else p :: dictInsertPR rest pr

/-- `del self.pending_prs[n]` / `self.pending_prs.pop(n, None)`. -/
def removePR : List PendingPR → Nat → List PendingPR
  | [], _ => []
  | pr :: rest, n =>
      if pr.issue_number = n then rest
      else pr :: removePR rest n

/-- Python `set.add`: insert the element if not already present. -/
def setAdd (s : List Nat) (n : Nat) : List Nat :=
  if n ∈ s then s else s ++ [n]

/-- Python `set.discard` / `dict.pop(n, None)` on an association list of
distinct keys: drop the element. -/
def setDiscard (s : List Nat) (n : Nat) : List Nat :=
  s.filter fun m => m ≠ n

/-- Dict assignment in the dependency graph. -/
def depInsert : List (Nat × List Nat) → Nat → List Nat → List (Nat × List Nat)
  | [], n, ds => [(n, ds)]
  | e :: rest, n, ds =>
      if e.1 = n then (n, ds) :: rest
      else e :: depInsert rest n ds

/-- `dependency_graph.pop(n, None)`. -/
def depRemove (g : List (Nat × List Nat)) (n : Nat) : List (Nat × List Nat) :=
  g.filter fun e => e.1 ≠ n

/-- `PRReviewTracker.add_pending_pr` (pr_review_tracker.py lines 71-105).
`dependencies = None` (the default) and `dependencies = set()` are both
falsy in Python and modelled as `[]`: the PR stores `set()` and the
dependency graph is not touched. -/
def add_pending_pr (t : PRReviewTracker) (issue_number : Nat)
    (pr_url repository worker_id : String) (dependencies : List Nat)
    (now : Nat) : PRReviewTracker :=
  let pr : PendingPR :=
    { issue_number := issue_number
      pr_url := pr_url
      repository := repository
      created_at := now
      worker_id := worker_id
      dependencies := dependencies }
  { t with
    pending_prs := dictInsertPR t.pending_prs pr
    dependency_graph :=
      if dependencies.isEmpty then t.dependency_graph
      else depInsert t.dependency_graph issue_number dependencies }

/-- `PRReviewTracker.mark_approved` (pr_review_tracker.py lines 107-112). -/
def mark_approved (t : PRReviewTracker) (issue_number : Nat) : PRReviewTracker :=
  if (findPR t.pending_prs issue_number).isSome then
    { t with pending_prs := removePR t.pending_prs issue_number
             approved_prs := setAdd t.approved_prs issue_number }
  else t

/-- `PRReviewTracker.mark_changes_requested` (pr_review_tracker.py
lines 114-122). -/
def mark_changes_requested (t : PRReviewTracker) (issue_number : Nat) :
    PRReviewTracker :=
  if (findPR t.pending_prs issue_number).isSome then
    { t with pending_prs := removePR t.pending_prs issue_number
             changes_requested_prs := setAdd t.changes_requested_prs issue_number }
  else t

/-- `PRReviewTracker.mark_merged` (pr_review_tracker.py lines 124-130). -/
def mark_merged (t : PRReviewTracker) (issue_number : Nat) : PRReviewTracker :=
  { t with pending_prs := removePR t.pending_prs issue_number
           approved_prs := setDiscard t.approved_prs issue_number
           changes_requested_prs := setDiscard t.changes_requested_prs issue_number
           dependency_graph := depRemove t.dependency_graph issue_number }

/-- Number of pending PRs in the scope of an optional repository argument:
`sum(1 for pr in pending_prs.values() if pr.repository == repository)` when a
repository is given, `len(pending_prs)` otherwise. -/
def scopePendingCount (t : PRReviewTracker) (repository : Option String) : Nat :=
  match repository with
  | some repo => (t.pending_prs.filter fun pr => pr.repository = repo).length
  | none => t.pending_prs.length

/-- `PRReviewTracker.should_block_queue` (pr_review_tracker.py
lines 132-160). -/
def should_block_queue (t : PRReviewTracker) (repository : Option String) :
    Bool :=
  if t.block_on_changes_requested ∧ t.changes_requested_prs ≠ [] then
    true
  else
    match repository with
    | some repo =>
        if t.max_pending_prs ≤
            (t.pending_prs.filter fun pr => pr.repository = repo).length then
          true
        else false
    | none =>
        if t.max_pending_prs ≤ t.pending_prs.length then true else false

/-- `", ".join(f"#{n}" for n in ns)`. -/
def joinIssues (ns : List Nat) : String :=
  String.intercalate ", " (ns.map fun n => "#" ++ toString n)

/-- Insertion sort used to model Python `sorted` on issue-number sets. -/
def insertSorted (n : Nat) : List Nat → List Nat
  | [] => [n]
  | m :: rest => if n ≤ m then n :: m :: rest else m :: insertSorted n rest

/-- Python `sorted` on a list of naturals. -/
def sortNat : List Nat → List Nat
  | [] => []
  | n :: rest => insertSorted n (sortNat rest)

/-- `PRReviewTracker.get_blocking_reason` (pr_review_tracker.py
lines 190-223).  Note that, unlike `should_block_queue`, the first branch
does not consult `block_on_changes_requested`. -/
def get_blocking_reason (t : PRReviewTracker) (repository : Option String) :
    Option String :=
  if t.changes_requested_prs ≠ [] then
    some ("Changes requested on PRs: "
      ++ joinIssues (sortNat t.changes_requested_prs)
      ++ ". Address feedback before proceeding.")
  else
    match repository with
    | some repo =>
        let repo_pending := t.pending_prs.filter fun pr => pr.repository = repo
        if t.max_pending_prs ≤ repo_pending.length then
          some ("Too many pending PRs for " ++ repo ++ ": "
            ++ joinIssues (repo_pending.map fun pr => pr.issue_number)
            ++ ". Review and merge before proceeding (max: "
            ++ toString t.max_pending_prs ++ ").")
        else none
    | none =>
        if t.max_pending_prs ≤ t.pending_prs.length then
          some ("Too many pending PRs: "
            ++ joinIssues (sortNat (t.pending_prs.map fun pr => pr.issue_number))
            ++ ". Review and merge before proceeding (max: "
            ++ toString t.max_pending_prs ++ ").")
        else none

end PRReviewTracker

/-! ## Server request handlers (server.py)

The handlers are embedded as pure state transformers on the work queue and
PR tracker.  Worker-liveness bookkeeping, GitHub label/comment calls and
logging touch neither of these two states and are elided; the GitHub calls
in `mark_work_complete` are modelled as succeeding (an exception there would
skip the PR registration, which the embedding does not model). -/

namespace Server

open WorkQueue PRReviewTracker

/-- The JSON body answered by `GET /work/next` (server.py lines 269-295). -/
structure NextWorkResponse where
  work_available : Bool
  blocked : Bool
  reason : Option String
  work : Option WorkResult
deriving DecidableEq, Repr

/-- `get_next_work` handler for `GET /work/next` (server.py lines 245-295):
if `pr_tracker.should_block_queue()` (global scope, no repository argument)
the request is answered `blocked=true` with `get_blocking_reason()` and the
work queue is not consulted; otherwise the queue's `get_next_work` runs. -/
def getNextWorkHandler (t : PRReviewTracker) (q : WorkQueue)
    (worker_id : String) (now : Nat) : NextWorkResponse × WorkQueue :=
  if t.should_block_queue none then
    ({ work_available := false
       blocked := true
       reason := t.get_blocking_reason none
       work := none }, q)
  else
    match q.get_next_work worker_id now with
    | (none, q1) =>
        ({ work_available := false, blocked := false
           reason := none, work := none }, q1)
    | (some w, q1) =>
        ({ work_available := true, blocked := false
           reason := none, work := some w }, q1)

/-- Python truthiness of `repo = work_item.repository if work_item else None`:
truthy exactly when the item exists and its repository string is non-empty. -/
def repoTruthy : Option String → Bool
  | none => false
  | some r => r ≠ ""

/-- `mark_work_complete` handler for `POST /work/complete` (server.py
lines 298-365): looks up the item's repository, forwards to the queue's
`mark_complete` (with `pr_url` only on success, as in line 323), and when
`result.success` and the repository is known registers the PR with the
review tracker via `add_pending_pr` (a `WorkItem` has no `dependencies`
attribute, so the `hasattr` check always yields the empty set). -/
def markWorkCompleteHandler (q : WorkQueue) (t : PRReviewTracker)
    (worker_id : String) (issue_number : Nat) (pr_url : String)
    (success : Bool) (error : Option String) (now : Nat) :
    WorkQueue × PRReviewTracker :=
  let repo := (findItem q.items issue_number).map WorkItem.repository
  let q1 := (q.mark_complete issue_number worker_id success
      (if success then some pr_url else none) error now).2
  match success, repo with
  | true, some r =>
      if r ≠ "" then
        (q1, t.add_pending_pr issue_number pr_url r worker_id [] now)
      else
        (q1, t)
  | _, _ => (q1, t)

end Server

namespace WorkQueue

/-- A sequence of `add_work_item` calls with a fixed issue number: each list
entry supplies the `(title, body, labels, repository)` of one call. -/
def addSeq (q : WorkQueue) (n : Nat) :
    List (String × String × List String × String) → WorkQueue
  | [] => q
  | (t, b, ls, r) :: rest => addSeq (q.add_work_item n t b ls r).2 n rest

/-- Queue states reachable from the empty queue by the five mutating
operations. -/
inductive Reachable : WorkQueue → Prop where
  | empty : Reachable ⟨[]⟩
  | add (q : WorkQueue) (n : Nat) (t b : String) (ls : List String) (r : String) :
      Reachable q → Reachable (q.add_work_item n t b ls r).2
  | next (q : WorkQueue) (w : String) (now : Nat) :
      Reachable q → Reachable (q.get_next_work w now).2
  | complete (q : WorkQueue) (n : Nat) (w : String) (s : Bool)
      (pu er : Option String) (now : Nat) :
      Reachable q → Reachable (q.mark_complete n w s pu er now).2
  | failed (q : WorkQueue) (n : Nat) (w e : String) (now : Nat) :
      Reachable q → Reachable (q.mark_failed n w e now).2
  | release (q : WorkQueue) (n : Nat) (w : String) :
      Reachable q → Reachable (q.release_work n w).2

/-- Every in-progress item carries a worker assignment and a timestamp. -/
def InProgressInv (q : WorkQueue) : Prop :=
  ∀ it ∈ q.items, it.status = .in_progress →
    it.assigned_to ≠ none ∧ it.assigned_at ≠ none

end WorkQueue

namespace PRReviewTracker

/-- Membership of a pending PR in the scope designated by an optional
repository argument. -/
def inScope (pr : PendingPR) : Option String → Prop
  | some repo => pr.repository = repo
  | none => True

end PRReviewTracker

/-! ## Lemmas about the dictionary model -/

namespace WorkQueue

theorem findItem_eq_none_iff (l : List WorkItem) (n : Nat) :
    findItem l n = none ↔ ∀ x ∈ l, x.issue_number ≠ n := by
  induction l with
  | nil => simp [findItem]
  | cons it rest ih =>
      by_cases h : it.issue_number = n
      · simp [findItem, h]
      · simp [findItem, h, ih]

theorem hasIssueL_eq_false_iff (l : List WorkItem) (n : Nat) :
    hasIssueL l n = false ↔ findItem l n = none := by
  cases h : findItem l n <;> simp [hasIssueL, h]

theorem findItem_append_right (l : List WorkItem) (x : WorkItem) (n : Nat)
    (h : findItem l n = none) :
    findItem (l ++ [x]) n = if x.issue_number = n then some x else none := by
  induction l with
  | nil => simp [findItem]
  | cons it rest ih =>
      by_cases h' : it.issue_number = n
      · simp [findItem, h'] at h
      · rw [List.cons_append]
        simp only [findItem, h', if_false] at h ⊢
        exact ih h

theorem findItem_updateItem_self :
    ∀ (l : List WorkItem) (n : Nat) (f : WorkItem → WorkItem) (item : WorkItem),
      findItem l n = some item →
      (f item).issue_number = item.issue_number →
      findItem (updateItem l n f) n = some (f item)
  | [], n, f, item => by intro h _; simp [findItem] at h
  | it :: rest, n, f, item => by
      intro h hpres
      by_cases h' : it.issue_number = n
      · simp only [findItem, h', if_true, Option.some.injEq] at h
        subst h
        simp [updateItem, findItem, h', hpres]
      · simp only [findItem, h', if_false] at h
        simp only [updateItem, h', if_false, findItem]
        exact findItem_updateItem_self rest n f item h hpres

theorem findItem_updateItem_ne :
    ∀ (l : List WorkItem) (n m : Nat) (f : WorkItem → WorkItem) (item : WorkItem),
      findItem l n = some item → m ≠ n →
      (f item).issue_number = item.issue_number →
      findItem (updateItem l n f) m = findItem l m
  | [], n, m, f, item => by intro h _ _; simp [findItem] at h
  | it :: rest, n, m, f, item => by
      intro h hnm hpres
      by_cases h' : it.issue_number = n
      · simp only [findItem, h', if_true, Option.some.injEq] at h
        subst h
        have hf : (f it).issue_number ≠ m := by
          rw [hpres, h']; exact fun hh => hnm hh.symm
        have hit : it.issue_number ≠ m := by
          rw [h']; exact fun hh => hnm hh.symm
        have hnm2 : n ≠ m := fun hh => hnm hh.symm
        simp [updateItem, findItem, h', hf, hit, hnm2]
      · simp only [findItem, h', if_false] at h
        simp only [updateItem, h', if_false, findItem]
        by_cases h2 : it.issue_number = m
        · simp [h2]
        · simp [h2, findItem_updateItem_ne rest n m f item h hnm hpres]

theorem mem_updateItem {f : WorkItem → WorkItem} :
    ∀ {l : List WorkItem} {n : Nat} {x : WorkItem},
      x ∈ updateItem l n f → x ∈ l ∨ ∃ y ∈ l, x = f y := by
  intro l
  induction l with
  | nil => intro n x h; simp [updateItem] at h
  | cons it rest ih =>
      intro n x h
      by_cases h' : it.issue_number = n
      · simp only [updateItem, h', if_true, List.mem_cons] at h
        rcases h with h | h
        · exact Or.inr ⟨it, List.mem_cons_self it rest, h⟩
        · exact Or.inl (List.mem_cons_of_mem it h)
      · simp only [updateItem, h', if_false, List.mem_cons] at h
        rcases h with h | h
        · exact Or.inl (h ▸ List.mem_cons_self it rest)
        · rcases ih h with h2 | ⟨y, hy, hxy⟩
          · exact Or.inl (List.mem_cons_of_mem it h2)
          · exact Or.inr ⟨y, List.mem_cons_of_mem it hy, hxy⟩

theorem mem_removeItem :
    ∀ {l : List WorkItem} {n : Nat} {x : WorkItem},
      x ∈ removeItem l n → x ∈ l := by
  intro l
  induction l with
  | nil => intro n x h; simp [removeItem] at h
  | cons it rest ih =>
      intro n x h
      by_cases h' : it.issue_number = n
      · simp only [removeItem, h', if_true] at h
        exact List.mem_cons_of_mem it h
      · simp only [removeItem, h', if_false, List.mem_cons] at h
        rcases h with h | h
        · exact h ▸ List.mem_cons_self it rest
        · exact List.mem_cons_of_mem it (ih h)

/-! ## Lemmas about `get_next_work` -/

theorem getNextWorkAux_no_pending :
    ∀ (l : List WorkItem) (w : String) (now : Nat),
      (∀ x ∈ l, x.status ≠ .pending) →
      getNextWorkAux l w now = (none, l)
  | [], w, now => by intro _; rfl
  | it :: rest, w, now => by
      intro h
      have h1 : it.status ≠ .pending := h it (List.mem_cons_self it rest)
      simp only [getNextWorkAux, if_neg h1]
      rw [getNextWorkAux_no_pending rest w now
        (fun x hx => h x (List.mem_cons_of_mem it hx))]

theorem getNextWorkAux_first_pending (w : String) (now : Nat) :
    ∀ (l1 : List WorkItem) (it : WorkItem) (l2 : List WorkItem),
      (∀ x ∈ l1, x.status ≠ .pending) → it.status = .pending →
      getNextWorkAux (l1 ++ it :: l2) w now =
        (some (resultOf (assign it w now)), l1 ++ assign it w now :: l2)
  | [], it, l2 => by
      intro _ h2
      simp [getNextWorkAux, h2]
  | y :: l1, it, l2 => by
      intro h1 h2
      have hy : y.status ≠ .pending := h1 y (List.mem_cons_self y l1)
      have ih := getNextWorkAux_first_pending w now l1 it l2
        (fun x hx => h1 x (List.mem_cons_of_mem y hx)) h2
      show getNextWorkAux (y :: (l1 ++ it :: l2)) w now =
        (some (resultOf (assign it w now)), y :: (l1 ++ assign it w now :: l2))
      simp only [getNextWorkAux, if_neg hy, ih]

theorem getNextWorkAux_fst_none_iff :
    ∀ (l : List WorkItem) (w : String) (now : Nat),
      (getNextWorkAux l w now).1 = none ↔ ∀ x ∈ l, x.status ≠ .pending
  | [], w, now => by simp [getNextWorkAux]
  | it :: rest, w, now => by
      by_cases h : it.status = .pending
      · simp [getNextWorkAux, h]
      · simp [getNextWorkAux, h, getNextWorkAux_fst_none_iff rest w now]

/-! ## C1 and C2 -/

/-- C1 (amended): the work queue is uniquely keyed by `issueNumber` alone.
After a fresh `add_work_item` (returning `true`), the queue holds exactly one
item with that issue number, carrying the first call's title/body/labels and
repository; every later `add_work_item` with the same issue number — whatever
its title, body, labels or repository — returns `false` and leaves the state
unchanged, and so does any sequence of such calls. -/
theorem add_work_item_unique_by_issue_number
    (q : WorkQueue) (n : Nat) (t b : String) (ls : List String) (r : String)
    (hfresh : hasIssueL q.items n = false) :
    (q.add_work_item n t b ls r).1 = true ∧
    findItem (q.add_work_item n t b ls r).2.items n =
      some (freshItem n t b ls r) ∧
    ((q.add_work_item n t b ls r).2.items.filter
      fun it => it.issue_number = n).length = 1 ∧
    (∀ (t' b' : String) (ls' : List String) (r' : String),
      (q.add_work_item n t b ls r).2.add_work_item n t' b' ls' r' =
        (false, (q.add_work_item n t b ls r).2)) ∧
    (∀ calls, addSeq (q.add_work_item n t b ls r).2 n calls =
        (q.add_work_item n t b ls r).2) := by
  have hnone : findItem q.items n = none := (hasIssueL_eq_false_iff q.items n).mp hfresh
  have hall : ∀ x ∈ q.items, x.issue_number ≠ n := (findItem_eq_none_iff q.items n).mp hnone
  have hadd : q.add_work_item n t b ls r =
      (true, ⟨q.items ++ [freshItem n t b ls r]⟩) := by
    simp [add_work_item, hfresh]
  have hfind : findItem (q.items ++ [freshItem n t b ls r]) n =
      some (freshItem n t b ls r) := by
    rw [findItem_append_right q.items _ n hnone]
    simp [freshItem]
  have hhas : hasIssueL (q.items ++ [freshItem n t b ls r]) n = true := by
    simp [hasIssueL, hfind]
  refine ⟨by rw [hadd], by rw [hadd]; exact hfind, ?_, ?_, ?_⟩
  · rw [hadd]
    have : q.items.filter (fun it => it.issue_number = n) = [] := by
      rw [List.filter_eq_nil_iff]
      intro x hx
      simpa using hall x hx
    simp [List.filter_append, this, freshItem]
  · intro t' b' ls' r'
    rw [hadd]
    simp [add_work_item, hhas]
  · intro calls
    rw [hadd]
    generalize hq1 : (⟨q.items ++ [freshItem n t b ls r]⟩ : WorkQueue) = q1
    have hq1has : hasIssueL q1.items n = true := by rw [← hq1]; exact hhas
    clear hq1 hadd hfind hhas
    induction calls generalizing q1 with
    | nil => rfl
    | cons c rest ih =>
        obtain ⟨t', b', ls', r'⟩ := c
        have : q1.add_work_item n t' b' ls' r' = (false, q1) := by
          simp [add_work_item, hq1has]
        simp [addSeq, this, ih q1 hq1has]

/-- Witness for C1's amended theorem at a concrete input. -/
theorem add_work_item_unique_by_issue_number_witness :
    hasIssueL ([] : List WorkItem) 5 = false ∧
    ((⟨[]⟩ : WorkQueue).add_work_item 5 "Add dark mode" "body" ["ai-ready"]
      "org/app").1 = true :=
  ⟨rfl, (add_work_item_unique_by_issue_number ⟨[]⟩ 5 "Add dark mode" "body"
    ["ai-ready"] "org/app" rfl).1⟩

/-- C1 counterexample: `add_work_item` with an issue number already present
but a different repository returns `false` and inserts nothing, contradicting
the claim that the key is the pair `(repository, issueNumber)`. -/
theorem add_work_item_second_repository_counterexample :
    (((⟨[]⟩ : WorkQueue).add_work_item 1 "t1" "b1" [] "org/repoA").2.add_work_item
        1 "t2" "b2" [] "org/repoB").1 = false ∧
    (((⟨[]⟩ : WorkQueue).add_work_item 1 "t1" "b1" [] "org/repoA").2.add_work_item
        1 "t2" "b2" [] "org/repoB").2 =
      ((⟨[]⟩ : WorkQueue).add_work_item 1 "t1" "b1" [] "org/repoA").2 ∧
    ((⟨[]⟩ : WorkQueue).add_work_item 1 "t1" "b1" [] "org/repoA").2.items.length
      = 1 := by
  refine ⟨rfl, rfl, rfl⟩

/-- C2 (confirmed): `get_next_work` returns `none` with the state unchanged
exactly when no pending item exists; otherwise it returns the
earliest-inserted pending item, transitions exactly that item to in-progress
assigned to the calling worker at the current time, and leaves every other
item unchanged; hence for three pending items queued in order the three next
calls dequeue them in FIFO order. -/
theorem get_next_work_fifo_spec :
    (∀ (q : WorkQueue) (w : String) (now : Nat),
      ((q.get_next_work w now).1 = none ↔ ∀ x ∈ q.items, x.status ≠ .pending)) ∧
    (∀ (q : WorkQueue) (w : String) (now : Nat),
      (∀ x ∈ q.items, x.status ≠ .pending) → q.get_next_work w now = (none, q)) ∧
    (∀ (l1 : List WorkItem) (it : WorkItem) (l2 : List WorkItem)
        (w : String) (now : Nat),
      (∀ x ∈ l1, x.status ≠ .pending) → it.status = .pending →
      WorkQueue.get_next_work ⟨l1 ++ it :: l2⟩ w now =
        (some (resultOf (assign it w now)), ⟨l1 ++ assign it w now :: l2⟩)) ∧
    (∀ (a b c : WorkItem) (w1 w2 w3 : String) (n1 n2 n3 : Nat),
      a.status = .pending → b.status = .pending → c.status = .pending →
      (WorkQueue.get_next_work ⟨[a, b, c]⟩ w1 n1).1 =
        some (resultOf (assign a w1 n1)) ∧
      ((WorkQueue.get_next_work ⟨[a, b, c]⟩ w1 n1).2.get_next_work w2 n2).1 =
        some (resultOf (assign b w2 n2)) ∧
      (((WorkQueue.get_next_work ⟨[a, b, c]⟩ w1 n1).2.get_next_work
          w2 n2).2.get_next_work w3 n3).1 =
        some (resultOf (assign c w3 n3))) := by
  have hfirst : ∀ (l1 : List WorkItem) (it : WorkItem) (l2 : List WorkItem)
      (w : String) (now : Nat),
      (∀ x ∈ l1, x.status ≠ .pending) → it.status = .pending →
      WorkQueue.get_next_work ⟨l1 ++ it :: l2⟩ w now =
        (some (resultOf (assign it w now)), ⟨l1 ++ assign it w now :: l2⟩) := by
    intro l1 it l2 w now h1 h2
    simp [get_next_work, getNextWorkAux_first_pending w now l1 it l2 h1 h2]
  refine ⟨?_, ?_, hfirst, ?_⟩
  · intro q w now
    simpa [get_next_work] using getNextWorkAux_fst_none_iff q.items w now
  · intro q w now h
    simp [get_next_work, getNextWorkAux_no_pending q.items w now h]
  · intro a b c w1 w2 w3 n1 n2 n3 ha hb hc
    have hstep1 := hfirst [] a [b, c] w1 n1 (by intro x hx; simp at hx) ha
    have hnp : (assign a w1 n1).status ≠ .pending := by simp [assign]
    have hstep2 := hfirst [assign a w1 n1] b [c] w2 n2
      (by intro x hx; simp at hx; rw [hx]; exact hnp) hb
    have hnp2 : (assign b w2 n2).status ≠ .pending := by simp [assign]
    have hstep3 := hfirst [assign a w1 n1, assign b w2 n2] c [] w3 n3
      (by intro x hx; simp at hx
          rcases hx with hx | hx <;> rw [hx]
          · exact hnp
          · exact hnp2) hc
    refine ⟨by rw [show ([a, b, c] : List WorkItem) = [] ++ a :: [b, c] from rfl,
      hstep1], ?_, ?_⟩
    · rw [show ([a, b, c] : List WorkItem) = [] ++ a :: [b, c] from rfl, hstep1]
      simpa using congrArg Prod.fst hstep2
    · rw [show ([a, b, c] : List WorkItem) = [] ++ a :: [b, c] from rfl, hstep1]
      have h2' : ((⟨[] ++ assign a w1 n1 :: [b, c]⟩ : WorkQueue).get_next_work
          w2 n2).2 = ⟨[assign a w1 n1] ++ assign b w2 n2 :: [c]⟩ := by
        simpa using congrArg Prod.snd hstep2
      rw [h2']
      simpa using congrArg Prod.fst hstep3

/-- Witness for C2 at a concrete input: an empty queue has no pending item
and `get_next_work` is a no-op returning `none`. -/
theorem get_next_work_fifo_spec_witness :
    (⟨[]⟩ : WorkQueue).get_next_work "w1" 0 = (none, ⟨[]⟩) :=
  get_next_work_fifo_spec.2.1 ⟨[]⟩ "w1" 0 (by intro x hx; simp at hx)

/-! ## C3, C4, C5 -/

/-- C3 (confirmed): on an item assigned to the calling worker, `mark_failed`
returns `true` and increments the retry counter; when the incremented counter
reaches `MAX_RETRIES` (2) the item becomes `failed` with a retries-exhausted
error message, otherwise it is released to `pending` with the assignment
cleared; all other items are untouched.  In particular a first failure on a
fresh (`retryCount = 0`) item leaves it pending with `retryCount = 1` and
re-dequeueable, and a failure on a re-dequeued `retryCount = 1` item makes it
`failed` with `retryCount = 2`. -/
theorem mark_failed_retry_policy :
    (∀ (q : WorkQueue) (n : Nat) (w e : String) (now : Nat) (item : WorkItem),
      findItem q.items n = some item → item.assigned_to = some w →
      (q.mark_failed n w e now).1 = true ∧
      findItem (q.mark_failed n w e now).2.items n =
        some (if MAX_RETRIES ≤ item.retry_count + 1 then
          { item with retry_count := item.retry_count + 1
                      status := .failed
                      completed_at := some now
                      error := some ("Max retries exceeded. Last error: " ++ e) }
        else
          { item with retry_count := item.retry_count + 1
                      status := .pending
                      assigned_to := none
                      assigned_at := none
                      error := some ("Retry " ++ toString (item.retry_count + 1)
                        ++ ": " ++ e) }) ∧
      (∀ m, m ≠ n →
        findItem (q.mark_failed n w e now).2.items m = findItem q.items m)) ∧
    (∀ (it : WorkItem) (w e1 : String) (n1 : Nat),
      it.assigned_to = some w → it.retry_count = 0 →
      WorkQueue.mark_failed ⟨[it]⟩ it.issue_number w e1 n1 =
        (true, ⟨[{ it with retry_count := 1
                           status := .pending
                           assigned_to := none
                           assigned_at := none
                           error := some ("Retry " ++ toString 1 ++ ": " ++ e1) }]⟩)) ∧
    (∀ (it : WorkItem) (w2 e2 : String) (n2 n3 : Nat),
      it.status = .pending → it.retry_count = 1 →
      WorkQueue.get_next_work ⟨[it]⟩ w2 n2 =
        (some (resultOf (assign it w2 n2)), ⟨[assign it w2 n2]⟩) ∧
      WorkQueue.mark_failed ⟨[assign it w2 n2]⟩ it.issue_number w2 e2 n3 =
        (true, ⟨[{ assign it w2 n2 with
                   retry_count := 2
                   status := .failed
                   completed_at := some n3
                   error := some ("Max retries exceeded. Last error: " ++ e2) }]⟩)) := by
  refine ⟨?_, ?_, ?_⟩
  · intro q n w e now item hfind hassign
    by_cases hmr : MAX_RETRIES ≤ item.retry_count + 1
    · have hupd : q.mark_failed n w e now =
          (true, ⟨updateItem q.items n fun it =>
            { it with retry_count := item.retry_count + 1
                      status := .failed
                      completed_at := some now
                      error := some ("Max retries exceeded. Last error: " ++ e) }⟩) := by
        unfold mark_failed
        rw [hfind]
        simp [hassign, hmr]
      refine ⟨by rw [hupd], ?_, ?_⟩
      · rw [hupd, if_pos hmr]
        apply findItem_updateItem_self q.items n _ item hfind
        rfl
      · intro m hm
        rw [hupd]
        apply findItem_updateItem_ne q.items n m _ item hfind hm
        rfl
    · have hupd : q.mark_failed n w e now =
          (true, ⟨updateItem q.items n fun it =>
            { it with retry_count := item.retry_count + 1
                      status := .pending
                      assigned_to := none
                      assigned_at := none
                      error := some ("Retry " ++ toString (item.retry_count + 1)
                        ++ ": " ++ e) }⟩) := by
        unfold mark_failed
        rw [hfind]
        simp [hassign, hmr]
      refine ⟨by rw [hupd], ?_, ?_⟩
      · rw [hupd, if_neg hmr]
        apply findItem_updateItem_self q.items n _ item hfind
        rfl
      · intro m hm
        rw [hupd]
        apply findItem_updateItem_ne q.items n m _ item hfind hm
        rfl
  · intro it w e1 n1 hassign hrc
    simp [mark_failed, findItem, updateItem, MAX_RETRIES, hassign, hrc]
  · intro it w2 e2 n2 n3 hpending hrc
    constructor
    · simp [get_next_work, getNextWorkAux, hpending]
    · simp [mark_failed, findItem, updateItem, assign, MAX_RETRIES, hrc]

/-- Witness for C3 at a concrete input: a first failure on a fresh assigned
item returns `true`. -/
theorem mark_failed_retry_policy_witness :
    (WorkQueue.mark_failed
      ⟨[⟨7, "t", "b", [], "org/app", "br", .in_progress, some "w1", some 3,
        none, none, none, 0⟩]⟩ 7 "w1" "boom" 10).1 = true :=
  (mark_failed_retry_policy.1
    ⟨[⟨7, "t", "b", [], "org/app", "br", .in_progress, some "w1", some 3,
      none, none, none, 0⟩]⟩ 7 "w1" "boom" 10
    ⟨7, "t", "b", [], "org/app", "br", .in_progress, some "w1", some 3,
      none, none, none, 0⟩ rfl rfl).1

/-- C4 (confirmed): `mark_complete`, `mark_failed` and `release_work` return
`false` and leave the whole queue unchanged when the issue number is absent
or the item is not assigned to the calling worker; the rejection is an
ordinary `false` return of the (total) operation, never an exception. -/
theorem ownership_and_not_found_rejection
    (q : WorkQueue) (n : Nat) (w : String) (s : Bool) (pu er : Option String)
    (e : String) (now : Nat)
    (h : ∀ item, findItem q.items n = some item → item.assigned_to ≠ some w) :
    q.mark_complete n w s pu er now = (false, q) ∧
    q.mark_failed n w e now = (false, q) ∧
    q.release_work n w = (false, q) := by
  cases hf : findItem q.items n with
  | none =>
      unfold mark_complete mark_failed release_work
      rw [hf]
      exact ⟨rfl, rfl, rfl⟩
  | some item =>
      have hne := h item hf
      unfold mark_complete mark_failed release_work
      rw [hf]
      simp [hne]

/-- Witness for C4 at a concrete input: a worker distinct from the assignee
cannot complete the item. -/
theorem ownership_and_not_found_rejection_witness :
    WorkQueue.mark_complete
      ⟨[⟨7, "t", "b", [], "org/app", "br", .in_progress, some "w2", some 3,
        none, none, none, 0⟩]⟩ 7 "w1" true (some "url") none 9 =
      (false, ⟨[⟨7, "t", "b", [], "org/app", "br", .in_progress, some "w2",
        some 3, none, none, none, 0⟩]⟩) :=
  (ownership_and_not_found_rejection
    ⟨[⟨7, "t", "b", [], "org/app", "br", .in_progress, some "w2", some 3,
      none, none, none, 0⟩]⟩ 7 "w1" true (some "url") none "e" 9
    (by
      intro item hitem
      simp [WorkQueue.findItem] at hitem
      rw [← hitem]
      decide)).1

/-- C5 counterexample: on an item assigned to the caller with
`retryCount = 0`, `mark_complete` with `success = false` marks the item
`failed` directly, leaving `retryCount = 0` and the assignment in place —
it does not increment the retry counter and does not release the item back
to pending as the claim's retry-policy delegation would require. -/
theorem mark_complete_failure_counterexample :
    ((WorkQueue.mark_complete
      ⟨[⟨7, "t", "b", [], "org/app", "br", .in_progress, some "w1", some 3,
        none, none, none, 0⟩]⟩ 7 "w1" false none (some "boom") 9).2.items.map
      fun it => (it.status, it.retry_count, it.assigned_to)) =
    [(Status.failed, 0, some "w1")] := by decide

/-- C5 (amended): on an item assigned to the calling worker, `mark_complete`
with `success = true` returns `true`, sets the status to `completed` and
records `prURL` and `completedAt`; with `success = false` it returns `true`
and sets the status to `failed` directly — recording `completedAt`, `prURL`
and `error` but leaving `retryCount` and `assignedTo` untouched — rather than
delegating to the retry policy; other items are unchanged either way. -/
theorem mark_complete_success_and_failure
    (q : WorkQueue) (n : Nat) (w : String) (pu er : Option String) (now : Nat)
    (item : WorkItem) (hfind : findItem q.items n = some item)
    (hassign : item.assigned_to = some w) :
    (q.mark_complete n w true pu er now).1 = true ∧
    findItem (q.mark_complete n w true pu er now).2.items n =
      some { item with status := .completed
                       completed_at := some now
                       pr_url := pu
                       error := er } ∧
    (q.mark_complete n w false pu er now).1 = true ∧
    findItem (q.mark_complete n w false pu er now).2.items n =
      some { item with status := .failed
                       completed_at := some now
                       pr_url := pu
                       error := er } ∧
    (∀ m, m ≠ n → findItem (q.mark_complete n w true pu er now).2.items m =
      findItem q.items m) ∧
    (∀ m, m ≠ n → findItem (q.mark_complete n w false pu er now).2.items m =
      findItem q.items m) := by
  have hgen : ∀ s : Bool, q.mark_complete n w s pu er now =
      (true, ⟨updateItem q.items n fun it =>
        { it with status := (if s then Status.completed else Status.failed)
                  completed_at := some now
                  pr_url := pu
                  error := er }⟩) := by
    intro s
    unfold mark_complete
    rw [hfind]
    simp [hassign]
  refine ⟨by rw [hgen true], ?_, by rw [hgen false], ?_, ?_, ?_⟩
  · rw [hgen true]
    apply findItem_updateItem_self q.items n _ item hfind
    rfl
  · rw [hgen false]
    apply findItem_updateItem_self q.items n _ item hfind
    rfl
  · intro m hm
    rw [hgen true]
    apply findItem_updateItem_ne q.items n m _ item hfind hm
    rfl
  · intro m hm
    rw [hgen false]
    apply findItem_updateItem_ne q.items n m _ item hfind hm
    rfl

/-- Witness for C5's amended theorem at a concrete input. -/
theorem mark_complete_success_and_failure_witness :
    (WorkQueue.mark_complete
      ⟨[⟨7, "t", "b", [], "org/app", "br", .in_progress, some "w1", some 3,
        none, none, none, 0⟩]⟩ 7 "w1" true (some "url") none 9).1 = true :=
  (mark_complete_success_and_failure
    ⟨[⟨7, "t", "b", [], "org/app", "br", .in_progress, some "w1", some 3,
      none, none, none, 0⟩]⟩ 7 "w1" (some "url") none 9
    ⟨7, "t", "b", [], "org/app", "br", .in_progress, some "w1", some 3,
      none, none, none, 0⟩ rfl rfl).1

end WorkQueue

/-! ## Lemmas about the PR review tracker -/

namespace PRReviewTracker

theorem findPR_mem :
    ∀ {l : List PendingPR} {n : Nat} {pr : PendingPR},
      findPR l n = some pr → pr ∈ l := by
  intro l
  induction l with
  | nil => intro n pr h; simp [findPR] at h
  | cons p rest ih =>
      intro n pr h
      by_cases h' : p.issue_number = n
      · simp only [findPR, h', if_true, Option.some.injEq] at h
        exact h ▸ List.mem_cons_self p rest
      · simp only [findPR, h', if_false] at h
        exact List.mem_cons_of_mem p (ih h)

theorem removePR_length :
    ∀ (l : List PendingPR) (n : Nat) (pr : PendingPR),
      findPR l n = some pr → (removePR l n).length + 1 = l.length
  | [], n, pr => by intro h; simp [findPR] at h
  | p :: rest, n, pr => by
      intro h
      by_cases h' : p.issue_number = n
      · simp [removePR, h']
      · simp only [findPR, h', if_false] at h
        simp only [removePR, h', if_false, List.length_cons]
        rw [removePR_length rest n pr h]

theorem removePR_filter_length :
    ∀ (l : List PendingPR) (n : Nat) (pr : PendingPR) (p : PendingPR → Bool),
      findPR l n = some pr → p pr = true →
      ((removePR l n).filter p).length + 1 = (l.filter p).length
  | [], n, pr, p => by intro h _; simp [findPR] at h
  | q :: rest, n, pr, p => by
      intro h hp
      by_cases h' : q.issue_number = n
      · simp only [findPR, h', if_true, Option.some.injEq] at h
        subst h
        simp [removePR, h', List.filter_cons, hp]
      · simp only [findPR, h', if_false] at h
        simp only [removePR, h', if_false, List.filter_cons]
        cases hq : p q
        · simp [removePR_filter_length rest n pr p h hp]
        · simp [removePR_filter_length rest n pr p h hp]

theorem findPR_dictInsertPR_self :
    ∀ (l : List PendingPR) (pr : PendingPR),
      findPR (dictInsertPR l pr) pr.issue_number = some pr
  | [], pr => by simp [dictInsertPR, findPR]
  | p :: rest, pr => by
      by_cases h' : p.issue_number = pr.issue_number
      · simp [dictInsertPR, h', findPR]
      · simp only [dictInsertPR, h', if_false, findPR]
        exact findPR_dictInsertPR_self rest pr

/-- `should_block_queue` as a boolean formula: blocked iff
(`blockOnChangesRequested` and some PR has changes requested) or the pending
count in scope reaches `maxPendingPRs`. -/
theorem should_block_queue_eq (t : PRReviewTracker) (repo : Option String) :
    t.should_block_queue repo =
      ((t.block_on_changes_requested && !(t.changes_requested_prs.isEmpty)) ||
        decide (t.max_pending_prs ≤ t.scopePendingCount repo)) := by
  unfold should_block_queue scopePendingCount
  by_cases hb : t.block_on_changes_requested ∧ t.changes_requested_prs ≠ []
  · rw [if_pos hb]
    rcases hb with ⟨hb1, hb2⟩
    have hne : t.changes_requested_prs.isEmpty = false := by
      cases h : t.changes_requested_prs
      · exact absurd h hb2
      · rfl
    rw [hb1, hne]
    rfl
  · rw [if_neg hb]
    have hor : (t.block_on_changes_requested && !(t.changes_requested_prs.isEmpty))
        = false := by
      cases hb1 : t.block_on_changes_requested
      · rfl
      · cases hc : t.changes_requested_prs
        · rfl
        · exact absurd ⟨hb1, by simp [hc]⟩ hb
    rw [hor]
    cases repo with
    | none =>
        by_cases hc : t.max_pending_prs ≤ t.pending_prs.length <;> simp [hc]
    | some r =>
        by_cases hc : t.max_pending_prs ≤
            (t.pending_prs.filter fun pr => pr.repository = r).length <;>
          simp [hc]

/-! ## C6 and C10 -/

/-- C6 (confirmed): `should_block_queue` is true iff
(`blockOnChangesRequested` and the changes-requested set is non-empty) or the
pending count in the given scope (per-repository when supplied, global
otherwise) reaches `maxPendingPRs`; consequently, with no changes-requested
PRs, the queue is blocked immediately after an `add_pending_pr` brings the
scope's pending count to `maxPendingPRs`, and unblocked immediately after one
of those pending PRs is resolved via `mark_approved` or `mark_merged`. -/
theorem should_block_queue_characterization :
    (∀ (t : PRReviewTracker) (repo : Option String),
      t.should_block_queue repo =
        ((t.block_on_changes_requested && !(t.changes_requested_prs.isEmpty)) ||
          decide (t.max_pending_prs ≤ t.scopePendingCount repo))) ∧
    (∀ (t : PRReviewTracker) (n : Nat) (purl repo w : String)
        (deps : List Nat) (now : Nat) (scope : Option String),
      t.changes_requested_prs = [] →
      (t.add_pending_pr n purl repo w deps now).scopePendingCount scope =
        t.max_pending_prs →
      (t.add_pending_pr n purl repo w deps now).should_block_queue scope = true) ∧
    (∀ (t : PRReviewTracker) (n : Nat) (pr : PendingPR) (scope : Option String),
      t.changes_requested_prs = [] →
      findPR t.pending_prs n = some pr → inScope pr scope →
      t.scopePendingCount scope = t.max_pending_prs →
      (t.mark_approved n).should_block_queue scope = false) ∧
    (∀ (t : PRReviewTracker) (n : Nat) (pr : PendingPR) (scope : Option String),
      t.changes_requested_prs = [] →
      findPR t.pending_prs n = some pr → inScope pr scope →
      t.scopePendingCount scope = t.max_pending_prs →
      (t.mark_merged n).should_block_queue scope = false) := by
  have hcount_approved : ∀ (t : PRReviewTracker) (n : Nat) (pr : PendingPR)
      (scope : Option String), findPR t.pending_prs n = some pr →
      inScope pr scope →
      (t.mark_approved n).scopePendingCount scope + 1 =
        t.scopePendingCount scope := by
    intro t n pr scope hfind hscope
    have hpend : (t.mark_approved n).pending_prs = removePR t.pending_prs n := by
      simp [mark_approved, hfind]
    cases scope with
    | none =>
        simp only [scopePendingCount, hpend]
        exact removePR_length t.pending_prs n pr hfind
    | some r =>
        simp only [scopePendingCount, hpend]
        exact removePR_filter_length t.pending_prs n pr _ hfind
          (by simp [inScope] at hscope; simp [hscope])
  have hcount_merged : ∀ (t : PRReviewTracker) (n : Nat) (pr : PendingPR)
      (scope : Option String), findPR t.pending_prs n = some pr →
      inScope pr scope →
      (t.mark_merged n).scopePendingCount scope + 1 =
        t.scopePendingCount scope := by
    intro t n pr scope hfind hscope
    have hpend : (t.mark_merged n).pending_prs = removePR t.pending_prs n := by
      simp [mark_merged]
    cases scope with
    | none =>
        simp only [scopePendingCount, hpend]
        exact removePR_length t.pending_prs n pr hfind
    | some r =>
        simp only [scopePendingCount, hpend]
        exact removePR_filter_length t.pending_prs n pr _ hfind
          (by simp [inScope] at hscope; simp [hscope])
  refine ⟨should_block_queue_eq, ?_, ?_, ?_⟩
  · intro t n purl repo w deps now scope hch hcount
    rw [should_block_queue_eq, hcount]
    have hch2 : (t.add_pending_pr n purl repo w deps now).changes_requested_prs
        = t.changes_requested_prs := by simp [add_pending_pr]
    have hmax : (t.add_pending_pr n purl repo w deps now).max_pending_prs
        = t.max_pending_prs := by simp [add_pending_pr]
    rw [hch2, hch, hmax]
    simp
  · intro t n pr scope hch hfind hscope hcount
    have hcnt := hcount_approved t n pr scope hfind hscope
    have hch2 : (t.mark_approved n).changes_requested_prs
        = t.changes_requested_prs := by simp [mark_approved, hfind]
    have hmax : (t.mark_approved n).max_pending_prs = t.max_pending_prs := by
      simp [mark_approved, hfind]
    rw [should_block_queue_eq, hch2, hch, hmax]
    have hlt : ¬ (t.max_pending_prs ≤ (t.mark_approved n).scopePendingCount scope) := by
      omega
    simp [hlt]
  · intro t n pr scope hch hfind hscope hcount
    have hcnt := hcount_merged t n pr scope hfind hscope
    have hch2 : (t.mark_merged n).changes_requested_prs
        = setDiscard t.changes_requested_prs n := by simp [mark_merged]
    have hmax : (t.mark_merged n).max_pending_prs = t.max_pending_prs := by
      simp [mark_merged]
    rw [should_block_queue_eq, hch2, hch, hmax]
    have hlt : ¬ (t.max_pending_prs ≤ (t.mark_merged n).scopePendingCount scope) := by
      omega
    simp [hlt, setDiscard]

/-- Witness for C6 at a concrete input: with `maxPendingPRs = 1` and no
changes requested, the tracker blocks after the first `add_pending_pr`. -/
theorem should_block_queue_characterization_witness :
    (({ max_pending_prs := 1 } : PRReviewTracker).add_pending_pr 4 "u"
      "org/app" "w1" [] 0).should_block_queue none = true :=
  should_block_queue_characterization.2.1 { max_pending_prs := 1 } 4 "u"
    "org/app" "w1" [] 0 none rfl rfl

/-- C10 (confirmed): whenever `should_block_queue` is true for some optional
repository scope, `get_blocking_reason` for the same scope returns a
human-readable string: a blocked queue always comes with a reason. -/
theorem blocked_queue_has_reason (t : PRReviewTracker) (repo : Option String)
    (h : t.should_block_queue repo = true) :
    (t.get_blocking_reason repo).isSome = true := by
  by_cases hc : t.changes_requested_prs = []
  · have hcc : ¬(t.block_on_changes_requested ∧ t.changes_requested_prs ≠ []) :=
      fun hh => hh.2 hc
    unfold should_block_queue at h
    rw [if_neg hcc] at h
    have hnn : ¬(t.changes_requested_prs ≠ []) := fun hh => hh hc
    unfold get_blocking_reason
    rw [if_neg hnn]
    cases repo with
    | none =>
        by_cases hle : t.max_pending_prs ≤ t.pending_prs.length
        · simp [hle]
        · simp [hle] at h
    | some r =>
        by_cases hle : t.max_pending_prs ≤
            (t.pending_prs.filter fun pr => pr.repository = r).length
        · simp [hle]
        · simp [hle] at h
  · unfold get_blocking_reason
    rw [if_pos hc]
    rfl

/-- Witness for C10 at a concrete input: one PR with changes requested blocks
the queue and yields a reason. -/
theorem blocked_queue_has_reason_witness :
    (({ changes_requested_prs := [3] } : PRReviewTracker).get_blocking_reason
      none).isSome = true :=
  blocked_queue_has_reason { changes_requested_prs := [3] } none rfl

end PRReviewTracker

/-! ## C7 and C8: server handlers -/

namespace Server

open WorkQueue PRReviewTracker

/-- C7 (confirmed): when the PR review tracker blocks the queue (global
scope, as the handler calls it), `GET /work/next` answers `blocked = true`
with the tracker's blocking reason and without consulting the work queue:
the queue state — every item's status, assignment and membership — is
returned unchanged, so no item transitions to in-progress. -/
theorem blocked_request_leaves_queue_unchanged
    (t : PRReviewTracker) (q : WorkQueue) (w : String) (now : Nat)
    (h : t.should_block_queue none = true) :
    getNextWorkHandler t q w now =
      ({ work_available := false
         blocked := true
         reason := t.get_blocking_reason none
         work := none }, q) := by
  unfold getNextWorkHandler
  rw [if_pos h]

/-- Witness for C7 at a concrete input: with `maxPendingPRs = 0` the queue is
always blocked and the handler leaves a one-item queue untouched. -/
theorem blocked_request_leaves_queue_unchanged_witness :
    (getNextWorkHandler ({ max_pending_prs := 0 } : PRReviewTracker)
      ⟨[WorkQueue.freshItem 1 "t" "b" [] "org/app"]⟩ "w1" 0).2 =
      ⟨[WorkQueue.freshItem 1 "t" "b" [] "org/app"]⟩ := by
  rw [blocked_request_leaves_queue_unchanged { max_pending_prs := 0 }
    ⟨[WorkQueue.freshItem 1 "t" "b" [] "org/app"]⟩ "w1" 0 rfl]

/-- C8 (confirmed): `POST /work/complete` forwards the report to the work
queue's `mark_complete` (passing the PR URL only on success), and registers
the reported PR with the review tracker — as a pending PR carrying the given
issue number, PR URL, the item's repository and the worker id — exactly when
the report has `success = true` and the item's repository is known (the item
exists and its repository string is non-empty, Python truthiness); a failure
report, an unknown issue, or an empty repository registers nothing. -/
theorem report_complete_forwards_and_registers
    (q : WorkQueue) (t : PRReviewTracker) (w : String) (n : Nat)
    (purl : String) (success : Bool) (er : Option String) (now : Nat) :
    (markWorkCompleteHandler q t w n purl success er now).1 =
      (q.mark_complete n w success (if success then some purl else none)
        er now).2 ∧
    (∀ item, WorkQueue.findItem q.items n = some item →
      item.repository ≠ "" → success = true →
      (markWorkCompleteHandler q t w n purl success er now).2 =
        t.add_pending_pr n purl item.repository w [] now ∧
      findPR (markWorkCompleteHandler q t w n purl success er now).2.pending_prs
        n = some ⟨n, purl, item.repository, now, w, []⟩) ∧
    (success = false →
      (markWorkCompleteHandler q t w n purl success er now).2 = t) ∧
    (WorkQueue.findItem q.items n = none →
      (markWorkCompleteHandler q t w n purl success er now).2 = t) ∧
    (∀ item, WorkQueue.findItem q.items n = some item →
      item.repository = "" →
      (markWorkCompleteHandler q t w n purl success er now).2 = t) := by
  refine ⟨?_, ?_, ?_, ?_, ?_⟩
  · unfold markWorkCompleteHandler
    cases success with
    | false => cases hr : (WorkQueue.findItem q.items n).map WorkItem.repository <;>
        simp [hr]
    | true =>
        cases hr : (WorkQueue.findItem q.items n).map WorkItem.repository with
        | none => simp [hr]
        | some r => by_cases hr2 : r ≠ "" <;> simp [hr, hr2]
  · intro item hfind hrep hsucc
    subst hsucc
    have hmap : (WorkQueue.findItem q.items n).map WorkItem.repository =
        some item.repository := by rw [hfind]; rfl
    constructor
    · unfold markWorkCompleteHandler
      simp [hmap, hrep]
    · unfold markWorkCompleteHandler
      simp only [hmap]
      simp only [if_pos hrep]
      show findPR (PRReviewTracker.add_pending_pr t n purl item.repository
        w [] now).pending_prs n = some ⟨n, purl, item.repository, now, w, []⟩
      unfold PRReviewTracker.add_pending_pr
      exact findPR_dictInsertPR_self t.pending_prs
        ⟨n, purl, item.repository, now, w, []⟩
  · intro hsucc
    subst hsucc
    unfold markWorkCompleteHandler
    cases hr : (WorkQueue.findItem q.items n).map WorkItem.repository <;>
      simp [hr]
  · intro hfind
    have hmap : (WorkQueue.findItem q.items n).map WorkItem.repository = none := by
      rw [hfind]; rfl
    unfold markWorkCompleteHandler
    cases success <;> simp [hmap]
  · intro item hfind hrep
    have hmap : (WorkQueue.findItem q.items n).map WorkItem.repository =
        some item.repository := by rw [hfind]; rfl
    unfold markWorkCompleteHandler
    cases success <;> simp [hmap, hrep]

/-- Witness for C8 at a concrete input: a successful report on an assigned
item registers the PR with the tracker. -/
theorem report_complete_forwards_and_registers_witness :
    (markWorkCompleteHandler
      ⟨[⟨7, "t", "b", [], "org/app", "br", .in_progress, some "w1", some 3,
        none, none, none, 0⟩]⟩ ({} : PRReviewTracker) "w1" 7 "url" true none
      9).2 =
      PRReviewTracker.add_pending_pr {} 7 "url" "org/app" "w1" [] 9 :=
  ((report_complete_forwards_and_registers
    ⟨[⟨7, "t", "b", [], "org/app", "br", .in_progress, some "w1", some 3,
      none, none, none, 0⟩]⟩ {} "w1" 7 "url" true none 9).2.1
    ⟨7, "t", "b", [], "org/app", "br", .in_progress, some "w1", some 3,
      none, none, none, 0⟩ rfl (by decide) rfl).1

end Server

/-! ## C9: the in-progress invariant -/

namespace WorkQueue

theorem getNextWorkAux_mem :
    ∀ {l : List WorkItem} {w : String} {now : Nat} {x : WorkItem},
      x ∈ (getNextWorkAux l w now).2 → x ∈ l ∨ ∃ y ∈ l, x = assign y w now := by
  intro l
  induction l with
  | nil => intro w now x h; simp [getNextWorkAux] at h
  | cons it rest ih =>
      intro w now x h
      by_cases hp : it.status = .pending
      · simp only [getNextWorkAux, if_pos hp] at h
        rcases List.mem_cons.mp h with h1 | h1
        · exact Or.inr ⟨it, List.mem_cons_self it rest, h1⟩
        · exact Or.inl (List.mem_cons_of_mem it h1)
      · simp only [getNextWorkAux, if_neg hp] at h
        rcases List.mem_cons.mp h with h1 | h1
        · exact Or.inl (h1 ▸ List.mem_cons_self it rest)
        · rcases ih h1 with h2 | ⟨y, hy, hxy⟩
          · exact Or.inl (List.mem_cons_of_mem it h2)
          · exact Or.inr ⟨y, List.mem_cons_of_mem it hy, hxy⟩

/-- C9 (confirmed): in every queue state reachable from the empty queue by
`add_work_item`, `get_next_work`, `mark_complete`, `mark_failed` and
`release_work`, every item whose status is in-progress has a non-null
`assignedTo` and a non-null `assignedAt`. -/
theorem in_progress_items_are_assigned (q : WorkQueue) (h : Reachable q) :
    InProgressInv q := by
  induction h with
  | empty => intro it hit; simp at hit
  | add q0 n t b ls r _ ih =>
      intro it hit hst
      by_cases hh : hasIssueL q0.items n
      · rw [show (q0.add_work_item n t b ls r).2 = q0 from by
          simp [add_work_item, hh]] at hit
        exact ih it hit hst
      · rw [show (q0.add_work_item n t b ls r).2 =
            ⟨q0.items ++ [freshItem n t b ls r]⟩ from by
          simp [add_work_item, hh]] at hit
        rcases List.mem_append.mp hit with h1 | h1
        · exact ih it h1 hst
        · simp only [List.mem_singleton] at h1
          subst h1
          simp [freshItem] at hst
  | next q0 w now _ ih =>
      intro it hit hst
      have hit2 : it ∈ (getNextWorkAux q0.items w now).2 := by
        simpa [get_next_work] using hit
      rcases getNextWorkAux_mem hit2 with h1 | ⟨y, _, hxy⟩
      · exact ih it h1 hst
      · subst hxy
        exact ⟨by simp [assign], by simp [assign]⟩
  | complete q0 n w s pu er now _ ih =>
      intro it hit hst
      unfold mark_complete at hit
      cases hf : findItem q0.items n with
      | none =>
          simp only [hf] at hit
          exact ih it hit hst
      | some item =>
          by_cases ha : item.assigned_to = some w
          · simp [hf, ha] at hit
            rcases mem_updateItem hit with h1 | ⟨y, _, hxy⟩
            · exact ih it h1 hst
            · subst hxy
              cases s <;> simp at hst
          · simp [hf, ha] at hit
            exact ih it hit hst
  | failed q0 n w e now _ ih =>
      intro it hit hst
      unfold mark_failed at hit
      cases hf : findItem q0.items n with
      | none =>
          simp only [hf] at hit
          exact ih it hit hst
      | some item =>
          by_cases ha : item.assigned_to = some w
          · by_cases hmr : MAX_RETRIES ≤ item.retry_count + 1
            · simp [hf, ha, hmr] at hit
              rcases mem_updateItem hit with h1 | ⟨y, _, hxy⟩
              · exact ih it h1 hst
              · subst hxy
                simp at hst
            · simp [hf, ha, hmr] at hit
              rcases mem_updateItem hit with h1 | ⟨y, _, hxy⟩
              · exact ih it h1 hst
              · subst hxy
                simp at hst
          · simp [hf, ha] at hit
            exact ih it hit hst
  | release q0 n w _ ih =>
      intro it hit
      unfold release_work at hit
      cases hf : findItem q0.items n with
      | none =>
          simp only [hf] at hit
          exact ih it hit
      | some item =>
          by_cases ha : item.assigned_to = some w
          · simp [hf, ha] at hit
            exact ih it (mem_removeItem hit)
          · simp [hf, ha] at hit
            exact ih it hit

/-- Witness for C9: the invariant holds of the concrete queue reached by one
insertion followed by one dequeue. -/
theorem in_progress_items_are_assigned_witness :
    InProgressInv (((⟨[]⟩ : WorkQueue).add_work_item 1 "t" "b" []
      "org/app").2.get_next_work "w1" 5).2 :=
  in_progress_items_are_assigned _
    (Reachable.next _ "w1" 5 (Reachable.add ⟨[]⟩ 1 "t" "b" [] "org/app"
      Reachable.empty))

end WorkQueue

end Orchestrator
